import Mathlib

/-
Verification of the hana-voice-saas voice service (Python) against its
natural-language specification.  Each Python function named in the claims is
shallowly embedded as an executable Lean definition, translated line by line
from the source under src/Python/voice_service/app/.  Machine strings are
Lean Strings, byte strings are lists of naturals below 256 (or Fin 256),
wall-clock times are rationals, and fallible operations return Option.
-/

set_option maxRecDepth 8192

/-! ## Python string primitives used by maqsam_handler.py -/

/-- Python str.strip(): drop whitespace from both ends.  Embedded directly on
the character list so that kernel evaluation is cheap. -/
def pyStrip (s : String) : String :=
  String.mk (((s.toList.dropWhile Char.isWhitespace).reverse.dropWhile
      Char.isWhitespace).reverse)

/-- Python str.lower() restricted to the ASCII range, which covers every
keyword and test string appearing in the source (Arabic letters are fixed
points of lower() as they are of Char.toLower). -/
def pyLower (s : String) : String :=
  String.mk (s.toList.map Char.toLower)

/-- The normalization prefix of _normalize_arabic_response:
response_text.strip().lower(). -/
def pyNorm (s : String) : String := pyLower (pyStrip s)

/-- Python substring containment test (the "pattern in normalized" operator):
pat occurs contiguously inside s. -/
def pyIn (pat s : String) : Bool :=
  go pat.toList s.toList
where
  go (p : List Char) : List Char → Bool
    | [] => p.isEmpty
    | c :: rest => p.isPrefixOf (c :: rest) || go p rest

/-- Python any(pattern in s for pattern in pats). -/
def matchesAny (pats : List String) (s : String) : Bool :=
  pats.any (fun p => pyIn p s)

/-! ## maqsam_handler.py: _normalize_arabic_response (lines 495-540) -/

/-- The yes_patterns list of _normalize_arabic_response. -/
def yes_patterns : List String :=
  ["نعم", "اي", "ايوه", "yes", "موافق", "صحيح", "اكيد", "طبعا"]

/-- The no_patterns list of _normalize_arabic_response. -/
def no_patterns : List String :=
  ["لا", "no", "غير موافق", "خطأ", "ابدا", "مستحيل"]

/-- The uncertain_patterns list of _normalize_arabic_response. -/
def uncertain_patterns : List String :=
  ["غير متأكد", "لا اعرف", "uncertain", "maybe", "ربما", "مش متأكد", "مش عارف"]

/-- Base code points of the Unicode (version 14) decimal-digit blocks
(category Nd): every decimal digit character lies in exactly one interval
from base to base + 9 and denotes its offset from that base.  This is the
character class matched by the digit class of Python regular expressions
and accepted by Python int(), covering in particular the ASCII digits
(0x30) and the Arabic-Indic (0x660) and Extended Arabic-Indic (0x6F0)
digits of the service's input domain. -/
def ndBases : List Nat :=
  [0x30, 0x660, 0x6F0, 0x7C0, 0x966, 0x9E6, 0xA66, 0xAE6, 0xB66, 0xBE6,
   0xC66, 0xCE6, 0xD66, 0xDE6, 0xE50, 0xED0, 0xF20, 0x1040, 0x1090, 0x17E0,
   0x1810, 0x1946, 0x19D0, 0x1A80, 0x1A90, 0x1B50, 0x1BB0, 0x1C40, 0x1C50,
   0xA620, 0xA8D0, 0xA900, 0xA9D0, 0xA9F0, 0xAA50, 0xABF0, 0xFF10, 0x104A0,
   0x10D30, 0x11066, 0x110F0, 0x11136, 0x111D0, 0x112F0, 0x11450, 0x114D0,
   0x11650, 0x116C0, 0x11730, 0x118E0, 0x11950, 0x11C50, 0x11D50, 0x11DA0,
   0x16A60, 0x16AC0, 0x16B50, 0x1D7CE, 0x1D7D8, 0x1D7E2, 0x1D7EC, 0x1D7F6,
   0x1E140, 0x1E2F0, 0x1E950, 0x1FBF0]

/-- Membership in the Unicode decimal-digit class. -/
def pyIsDigit (c : Char) : Bool :=
  ndBases.any (fun b => b ≤ c.toNat ∧ c.toNat ≤ b + 9)

/-- The decimal value of a Unicode decimal digit: its offset from the base
of its block (0 for characters outside the class, which never occur in the
digit runs built below). -/
def pyDigitVal (c : Char) : Nat :=
  match ndBases.find? (fun b => b ≤ c.toNat ∧ c.toNat ≤ b + 9) with
  | some b => c.toNat - b
  | none => 0

/-- Maximal runs of Unicode decimal digits in a character list, in order:
the embedding of re.findall applied with the digit-run pattern.  The second
argument accumulates the (reversed) current run. -/
def digitRuns : List Char → List Char → List (List Char)
  | [], acc => if acc.isEmpty then [] else [acc.reverse]
  | c :: rest, acc =>
    if pyIsDigit c then digitRuns rest (c :: acc)
    else if acc.isEmpty then digitRuns rest []
    else acc.reverse :: digitRuns rest []

/-- Decimal value of a digit run (the embedding of Python int applied to the
matched substring, which accepts every Unicode decimal digit). -/
def natOfDigits (cs : List Char) : Nat :=
  cs.foldl (fun n c => n * 10 + pyDigitVal c) 0

/-- int(numbers[0]) for the first digit run found in s, or none when s
contains no digit. -/
def first_int (s : String) : Option Nat :=
  match digitRuns s.toList [] with
  | [] => none
  | run :: _ => some (natOfDigits run)

/-- MaqsamProtocolHandler._normalize_arabic_response.  Returns the pair
(normalized_text, numeric_value).  Keyword matching is Python substring
containment on the stripped, lowercased response; the rating branch extracts
the first embedded integer and accepts it only inside the closed interval
from 1 to 5; every other path returns the original text with value none. -/
def normalize_arabic_response (response_text : String)
    (question_type : String := "yes_no") : String × Option Nat :=
  let normalized := pyNorm response_text
  if question_type = "yes_no" then
    if matchesAny yes_patterns normalized then ("نعم", some 1)
    else if matchesAny no_patterns normalized then ("لا", some 0)
    else if matchesAny uncertain_patterns normalized then ("غير متأكد", some 3)
    else (response_text, none)
  else if question_type = "rating" then
    match first_int normalized with
    | some rating =>
      if 1 ≤ rating ∧ rating ≤ 5 then (toString rating, some rating)
      else (response_text, none)
    | none => (response_text, none)
  else (response_text, none)

/-! ## maqsam_handler.py: _is_survey_complete (lines 594-601) -/

/-- One element of session_context["collected_responses"], as assembled by
_track_survey_response (confidence and wall-clock fields omitted: the
completion check only measures the length of the list). -/
structure ResponseEntry where
  question_id : String
  question_order : Int
  response_text : String
  response_value : Option Nat
deriving DecidableEq

/-- MaqsamProtocolHandler._is_survey_complete:
len(collected_responses) >= total_questions and total_questions > 0. -/
def is_survey_complete (total_questions : Int)
    (collected_responses : List ResponseEntry) : Bool :=
  (collected_responses.length : Int) ≥ total_questions ∧ total_questions > 0

/-! ## main.py: _is_questionnaire_complete (lines 290-294) -/

/-- The patient_data sub-dictionary of the healthcare relay context
(main.py lines 669-675); responses is a map from question keys to answers. -/
structure PatientData where
  responses : List (String × String)
  symptoms : List String
  appointment_needed : Bool
deriving DecidableEq

/-- The healthcare relay session context.  A total_questions field is carried
so that independence of the relay completion check from it can be stated; the
relay check never consults it. -/
structure HealthcareContext where
  patient_data : PatientData
  total_questions : Int
deriving DecidableEq

/-- main.py _is_questionnaire_complete: the relay-path completion check,
len(context["patient_data"]["responses"]) >= 3. -/
def is_questionnaire_complete (context : HealthcareContext) : Bool :=
  context.patient_data.responses.length ≥ 3

/-! ## Theorems -/

/-- Claim C5: for every telephony session context, the survey-completion
check returns true if and only if the number of collected responses is at
least total_questions and total_questions is strictly positive; in
particular it returns false whenever total_questions = 0, regardless of how
many responses have been collected. -/
theorem survey_complete_iff (total_questions : Int)
    (collected_responses : List ResponseEntry) :
    (is_survey_complete total_questions collected_responses = true ↔
      ((collected_responses.length : Int) ≥ total_questions ∧
        total_questions > 0)) ∧
    is_survey_complete 0 collected_responses = false := by
  constructor
  · simp [is_survey_complete]
  · simp [is_survey_complete]

/-- Claim C9: in the relay path, the questionnaire is reported complete
exactly when at least 3 responses are present in the patient-data responses
map, independently of any total-question count carried by the context. -/
theorem relay_completion_three_responses (context : HealthcareContext) :
    (is_questionnaire_complete context = true ↔
      3 ≤ context.patient_data.responses.length) ∧
    (∀ tq tq' : Int,
      is_questionnaire_complete { context with total_questions := tq } =
        is_questionnaire_complete { context with total_questions := tq' }) := by
  constructor
  · simp [is_questionnaire_complete]
  · intro tq tq'
    rfl

/-- Claim C6: yes/no normalization checks the three fixed keyword sets in
the priority order affirmative, negative, uncertain; the first set holding a
matching keyword determines the result with numeric values 1, 0, 3 and the
corresponding canonical texts; a text matching no set is returned unchanged
with value none; a text containing both an affirmative and a negative
keyword resolves as affirmative.  The four spec examples are included. -/
theorem yes_no_normalization_priority (s : String) :
    (matchesAny yes_patterns (pyNorm s) = true →
      normalize_arabic_response s "yes_no" = ("نعم", some 1)) ∧
    (matchesAny yes_patterns (pyNorm s) = false →
      matchesAny no_patterns (pyNorm s) = true →
      normalize_arabic_response s "yes_no" = ("لا", some 0)) ∧
    (matchesAny yes_patterns (pyNorm s) = false →
      matchesAny no_patterns (pyNorm s) = false →
      matchesAny uncertain_patterns (pyNorm s) = true →
      normalize_arabic_response s "yes_no" = ("غير متأكد", some 3)) ∧
    (matchesAny yes_patterns (pyNorm s) = false →
      matchesAny no_patterns (pyNorm s) = false →
      matchesAny uncertain_patterns (pyNorm s) = false →
      normalize_arabic_response s "yes_no" = (s, none)) ∧
    normalize_arabic_response "نعم" "yes_no" = ("نعم", some 1) ∧
    normalize_arabic_response "لا" "yes_no" = ("لا", some 0) ∧
    normalize_arabic_response "ربما" "yes_no" = ("غير متأكد", some 3) ∧
    normalize_arabic_response "aeiou" "yes_no" = ("aeiou", none) ∧
    normalize_arabic_response "نعم لا" "yes_no" = ("نعم", some 1) := by
  refine ⟨?_, ?_, ?_, ?_, by rfl, by rfl, by rfl, by rfl, by rfl⟩
  · intro h1
    simp [normalize_arabic_response, h1]
  · intro h1 h2
    simp [normalize_arabic_response, h1, h2]
  · intro h1 h2 h3
    simp [normalize_arabic_response, h1, h2, h3]
  · intro h1 h2 h3
    simp [normalize_arabic_response, h1, h2, h3]

/-- Witness for claim C6, applying the priority theorem at the concrete
input "لا", whose normalized form matches no affirmative keyword and the
negative keyword لا. -/
theorem yes_no_normalization_priority_witness :
    matchesAny yes_patterns (pyNorm "لا") = false ∧
    matchesAny no_patterns (pyNorm "لا") = true ∧
    normalize_arabic_response "لا" "yes_no" = ("لا", some 0) :=
  ⟨by rfl, by rfl,
    (yes_no_normalization_priority "لا").2.1 (by rfl) (by rfl)⟩

/-- Claim C7: rating normalization extracts the first embedded integer of
the normalized response, digits being the Unicode decimal digits the source
regular expression and int() accept; the result is that integer, as text
and as numeric value, exactly when it lies within the closed interval from
1 to 5; otherwise, including when no integer is present, the original text
is returned with numeric value none.  The Arabic-Indic digit example درجة ٣
is recognized as the rating 3. -/
theorem rating_normalization_spec (s : String) :
    (∀ n : Nat, first_int (pyNorm s) = some n →
      ((1 ≤ n ∧ n ≤ 5) →
        normalize_arabic_response s "rating" = (toString n, some n)) ∧
      (¬ (1 ≤ n ∧ n ≤ 5) →
        normalize_arabic_response s "rating" = (s, none))) ∧
    (first_int (pyNorm s) = none →
      normalize_arabic_response s "rating" = (s, none)) ∧
    first_int (pyNorm "درجة ٣") = some 3 ∧
    normalize_arabic_response "درجة ٣" "rating" = ("3", some 3) := by
  refine ⟨?_, ?_, by rfl, by rfl⟩
  · intro n hn
    constructor
    · intro hrange
      simp [normalize_arabic_response, hn, hrange]
    · intro hrange
      simp [normalize_arabic_response, hn, hrange]
  · intro hn
    simp [normalize_arabic_response, hn]

/-- Witness for claim C7, applying the rating theorem at the concrete input
"3", whose first embedded integer is 3 and lies within the rating bound. -/
theorem rating_normalization_spec_witness :
    first_int (pyNorm "3") = some 3 ∧
    normalize_arabic_response "3" "rating" = ("3", some 3) :=
  ⟨by rfl, ((rating_normalization_spec "3").1 3 (by rfl)).1 (by decide)⟩

/-- Counterexample for claim C8: the claimed value ("7", 7) is not what the
code returns for the rating input "الألم درجة 7", because the implemented
rating bound is the interval from 1 to 5 and 7 lies outside it. -/
theorem rating_seven_cex :
    normalize_arabic_response "الألم درجة 7" "rating" ≠ ("7", some 7) := by
  decide

/-- Claim C8 as amended: for the rating input "الألم درجة 7" the first
embedded integer 7 is extracted but rejected as outside the implemented
bound from 1 to 5, so the original text is returned with numeric value
none. -/
theorem rating_seven_amended :
    first_int (pyNorm "الألم درجة 7") = some 7 ∧
    ¬ (7 ≤ 5) ∧
    normalize_arabic_response "الألم درجة 7" "rating" =
      ("الألم درجة 7", none) :=
  ⟨by rfl, by decide, by rfl⟩

/-! ## main.py: session registry and capacity check (lines 41, 465-471,
483-504, 506-551, 614-661, 723-759) -/

/-- One value of the active_sessions dictionary (created_at, client_ip and
type fields omitted: the capacity check reads only the active flag). -/
structure SessionRecord where
  active : Bool
  authenticated : Bool
deriving DecidableEq

/-- The active_sessions dictionary, keyed by session id. -/
abbrev Registry : Type := List (String × SessionRecord)

/-- Filtering first by any key predicate cannot increase the number of
elements that satisfy a second predicate. -/
theorem filter_filter_length_le {α : Type} (l : List α) (p q : α → Bool) :
    ((l.filter p).filter q).length ≤ (l.filter q).length :=
  List.Sublist.length_le (List.Sublist.filter q (List.filter_sublist l))

/-- len([s for s in active_sessions.values() if s.get("active", False)]). -/
def activeCount (reg : Registry) : Nat :=
  (reg.filter (fun e => e.2.active)).length

/-- main.py check_concurrent_sessions: false when the active count has
reached MAX_CONCURRENT_SESSIONS, true otherwise. -/
def check_concurrent_sessions (max_concurrent_sessions : Nat)
    (reg : Registry) : Bool :=
  if activeCount reg ≥ max_concurrent_sessions then false else true

/-- main.py verify_telephony_token: false when no telephony token is
configured, otherwise an equality test against the pre-shared token. -/
def verify_telephony_token (telephony_token : Option String)
    (token : Option String) : Bool :=
  match telephony_token with
  | none => false
  | some configured => token = some configured

/-- Python dictionary assignment active_sessions[session_id] = record. -/
def dictInsert (reg : Registry) (sid : String) (record : SessionRecord) :
    Registry :=
  (sid, record) :: reg.filter (fun e => ¬ (e.1 = sid))

/-- The registration step of the endpoints that call
check_concurrent_sessions before admitting (the token endpoint at main.py
line 490 and the authenticated branches of the secure endpoints at lines
524 and 632): none means the request was refused with a capacity error. -/
def guarded_register (max_concurrent_sessions : Nat) (reg : Registry)
    (sid : String) : Option Registry :=
  if check_concurrent_sessions max_concurrent_sessions reg then
    some (dictInsert reg sid { active := true, authenticated := true })
  else none

/-- The admission step of telephony_websocket_endpoint (main.py lines
732-759): after verify_telephony_token succeeds the session is registered
unconditionally; no capacity check is performed on this path. -/
def telephony_register (telephony_token : Option String)
    (token : Option String) (reg : Registry) (sid : String) :
    Option Registry :=
  if verify_telephony_token telephony_token token then
    some (dictInsert reg sid { active := true, authenticated := true })
  else none

/-- A registry holding ten active sessions, the default cap. -/
def tenActiveSessions : Registry :=
  (List.range 10).map
    (fun i => (toString i, { active := true, authenticated := true }))

/-- Counterexample for claim C1: with the default cap of 10 and ten active
sessions already registered, the telephony endpoint admits an eleventh
session after token verification alone, pushing the active count to 11;
registration beyond the cap is not refused on this path. -/
theorem telephony_admits_beyond_cap_cex :
    activeCount tenActiveSessions = 10 ∧
    (telephony_register (some "tk") (some "tk") tenActiveSessions
        "telephony_1").map activeCount = some 11 := by
  constructor
  · rfl
  · rfl

/-- Claim C1 as amended: the capacity check refuses exactly when the active
count is at least the cap; every registration guarded by it is refused at
capacity and never yields a registry above the cap; but the telephony
endpoint registers after token verification alone, without any capacity
check, for every registry state. -/
theorem session_cap_amended (max_concurrent_sessions : Nat) (reg : Registry)
    (sid : String) :
    (check_concurrent_sessions max_concurrent_sessions reg = false ↔
      max_concurrent_sessions ≤ activeCount reg) ∧
    (max_concurrent_sessions ≤ activeCount reg →
      guarded_register max_concurrent_sessions reg sid = none) ∧
    (∀ reg', guarded_register max_concurrent_sessions reg sid = some reg' →
      activeCount reg' ≤ max_concurrent_sessions) ∧
    (∀ telephony_token token, verify_telephony_token telephony_token token = true →
      telephony_register telephony_token token reg sid =
        some (dictInsert reg sid { active := true, authenticated := true })) := by
  have hiff : check_concurrent_sessions max_concurrent_sessions reg = false ↔
      max_concurrent_sessions ≤ activeCount reg := by
    by_cases hge : activeCount reg ≥ max_concurrent_sessions
    · simp only [check_concurrent_sessions, if_pos hge]
      exact iff_of_true trivial hge
    · simp only [check_concurrent_sessions, if_neg hge]
      exact iff_of_false (by simp) hge
  refine ⟨hiff, ?_, ?_, ?_⟩
  · intro h
    simp [guarded_register, hiff.mpr h]
  · intro reg' h
    by_cases hc : check_concurrent_sessions max_concurrent_sessions reg = false
    · simp [guarded_register, hc] at h
    · have hc' : check_concurrent_sessions max_concurrent_sessions reg = true := by
        cases hb : check_concurrent_sessions max_concurrent_sessions reg
        · exact absurd hb hc
        · rfl
      have hlt : activeCount reg < max_concurrent_sessions := by
        by_contra hge
        exact hc (hiff.mpr (by omega))
      have hreg : reg' =
          dictInsert reg sid { active := true, authenticated := true } := by
        have h2 := h
        simp only [guarded_register, hc', if_pos, Option.some.injEq] at h2
        exact h2.symm
      subst hreg
      have hsub := filter_filter_length_le reg
        (fun e => ¬ (e.1 = sid)) (fun e => e.2.active)
      have hcount : activeCount
          (dictInsert reg sid { active := true, authenticated := true }) =
          ((reg.filter (fun e => ¬ (e.1 = sid))).filter
            (fun e => e.2.active)).length + 1 := by
        simp [dictInsert, activeCount, List.filter_cons]
      rw [hcount]
      have hlt2 : (reg.filter (fun e => e.2.active)).length <
          max_concurrent_sessions := hlt
      omega
  · intro telephony_token token hver
    simp [telephony_register, hver]

/-- Witness for claim C1 as amended, applied at cap 0 and the empty
registry: the guard refuses immediately. -/
theorem session_cap_amended_witness :
    (0 ≤ activeCount ([] : Registry)) ∧
    guarded_register 0 [] "s" = none :=
  ⟨Nat.zero_le _, (session_cap_amended 0 [] "s").2.1 (Nat.zero_le _)⟩

/-! ## maqsam_handler.py: connection handling (lines 43-242)

The WebSocket follows the ASGI semantics used by the framework: close
records a status code once, and a send attempted after close raises a
runtime error instead of delivering, which the catch-all handler of
handle_maqsam_connection turns into session termination. -/

/-- A message the service sends to the telephony peer. -/
inductive Outbound
  | sessionReady
  | responseStream (audio : List Nat)
  | errorMsg (message : String)
deriving DecidableEq

/-- The observable state of the server side of the WebSocket: messages
successfully delivered, in order, and the close code and reason once the
server has closed. -/
structure WsState where
  sent : List Outbound
  closed : Option (Nat × String)
deriving DecidableEq

/-- The socket just after websocket.accept(). -/
def ws0 : WsState := { sent := [], closed := none }

/-- await websocket.close(code, reason). -/
def wsClose (ws : WsState) (code : Nat) (reason : String) : WsState :=
  match ws.closed with
  | some _ => ws
  | none => { ws with closed := some (code, reason) }

/-- await websocket.send_text: delivers on an open socket, raises once the
server has closed (ASGI semantics). -/
def wsSend (ws : WsState) (m : Outbound) : Except String WsState :=
  match ws.closed with
  | some _ => Except.error "send after close"
  | none => Except.ok { ws with sent := ws.sent ++ [m] }

/-- A send whose failure is swallowed by an enclosing try/except, as in
_send_error_response and the catch-all of _handle_audio_input. -/
def wsSendCaught (ws : WsState) (m : Outbound) : WsState :=
  match wsSend ws m with
  | Except.ok ws' => ws'
  | Except.error _ => ws

/-- One text frame received from the peer: either a body json.loads rejects,
or a parsed object with its type field (none when absent) and the decoded
data.audio bytes (empty when absent). -/
inductive Inbound
  | malformed
  | msg (ty : Option String) (audio : List Nat)
deriving DecidableEq

/-- The environment of a turn: the FFmpeg transcoders (none models tool
missing, timeout, non-zero exit; an empty list models undersized output)
and the voice service. -/
structure VoiceEnv where
  transcodeToWav : List Nat → Option (List Nat)
  transcodeToUlaw : List Nat → Option (List Nat)
  voiceAvailable : Bool
  processVoice : List Nat → String × Option String
  fileExists : String → Bool
  readFile : String → List Nat

/-- MaqsamProtocolHandler._handle_audio_input (lines 169-217), with
_convert_ulaw_to_wav and _send_audio_response inlined: empty audio is
ignored; a failed or empty mu-law to WAV conversion is logged and the turn
abandoned with nothing sent; otherwise the voice service runs and either a
response.stream or an error message is emitted. -/
def handle_audio_input (env : VoiceEnv) (ws : WsState) (audio : List Nat) :
    WsState :=
  if audio.isEmpty then ws
  else
    match env.transcodeToWav audio with
    | none => ws
    | some wav =>
      if wav.isEmpty then ws
      else if env.voiceAvailable then
        match (env.processVoice wav).2 with
        | some path =>
          if env.fileExists path then
            match env.transcodeToUlaw (env.readFile path) with
            | none => ws
            | some ulaw =>
              if ulaw.isEmpty then ws
              else wsSendCaught ws (Outbound.responseStream ulaw)
          else wsSendCaught ws (Outbound.errorMsg "No audio response")
        | none => wsSendCaught ws (Outbound.errorMsg "No audio response")
      else wsSendCaught ws (Outbound.errorMsg "Voice service unavailable")

/-- MaqsamProtocolHandler._process_audio_loop (lines 140-167): each frame is
dispatched by type; malformed bodies and unhandled types are logged and
skipped; the loop ends when the peer disconnects (the inbox is exhausted).
Returns the socket state and the number of frames consumed. -/
def process_audio_loop (env : VoiceEnv) : WsState → List Inbound → WsState × Nat
  | ws, [] => (ws, 0)
  | ws, m :: rest =>
    let ws' := match m with
      | Inbound.malformed => ws
      | Inbound.msg ty audio =>
        if ty = some "audio.input" then handle_audio_input env ws audio
        else ws
    let r := process_audio_loop env ws' rest
    (r.1, r.2 + 1)

/-- MaqsamProtocolHandler.handle_maqsam_connection together with
_handle_session_setup (lines 43-127).  A malformed first frame closes with
code 1002 and re-raises; a first frame of any other type closes with code
1002 and returns, after which the session.ready send fails on the closed
socket and the catch-all ends the session; a session.setup first frame is
acknowledged with session.ready and the audio loop runs on the remaining
frames.  Returns the socket state and the number of frames consumed. -/
def handle_maqsam_connection (env : VoiceEnv) (inbox : List Inbound) :
    WsState × Nat :=
  match inbox with
  | [] => (ws0, 0)
  | first :: rest =>
    match first with
    | Inbound.malformed => (wsClose ws0 1002 "Invalid JSON format", 1)
    | Inbound.msg ty _ =>
      if ty = some "session.setup" then
        match wsSend ws0 Outbound.sessionReady with
        | Except.ok ws1 =>
          let r := process_audio_loop env ws1 rest
          (r.1, r.2 + 1)
        | Except.error _ => (ws0, 1)
      else
        let ws1 := wsClose ws0 1002 "Expected session.setup message"
        match wsSend ws1 Outbound.sessionReady with
        | Except.ok ws2 =>
          let r := process_audio_loop env ws2 rest
          (r.1, r.2 + 1)
        | Except.error _ => (ws1, 1)

/-- A first frame that violates the handshake: unparseable JSON, or a type
other than session.setup (including a missing type field). -/
def badSetup : Inbound → Bool
  | Inbound.malformed => true
  | Inbound.msg ty _ => ¬ (ty = some "session.setup")

/-- An environment in which every conversion and lookup fails. -/
def trivEnv : VoiceEnv :=
  { transcodeToWav := fun _ => none
    transcodeToUlaw := fun _ => none
    voiceAvailable := false
    processVoice := fun _ => ("", none)
    fileExists := fun _ => false
    readFile := fun _ => [] }

/-- Claim C3: in the awaiting-setup state, every first frame that is
malformed JSON or not of type session.setup leads to the connection being
closed with protocol-error status 1002; no message, in particular no
session.ready, is ever delivered to the peer, and no further frame of the
connection is consumed. -/
theorem handshake_bad_first_message_closes (env : VoiceEnv) (first : Inbound)
    (rest : List Inbound) (h : badSetup first = true) :
    (∃ reason,
      (handle_maqsam_connection env (first :: rest)).1.closed =
        some (1002, reason)) ∧
    (handle_maqsam_connection env (first :: rest)).1.sent = [] ∧
    (handle_maqsam_connection env (first :: rest)).2 = 1 := by
  cases first with
  | malformed =>
    exact ⟨⟨"Invalid JSON format", rfl⟩, rfl, rfl⟩
  | msg ty audio =>
    have hty : ¬ (ty = some "session.setup") := by
      simpa [badSetup] using h
    refine ⟨⟨"Expected session.setup message", ?_⟩, ?_, ?_⟩
    all_goals
      simp [handle_maqsam_connection, hty, wsClose, wsSend, ws0]

/-- Witness for claim C3, applied to a first frame of type audio.input. -/
theorem handshake_bad_first_message_closes_witness :
    badSetup (Inbound.msg (some "audio.input") []) = true ∧
    (∃ reason,
      (handle_maqsam_connection trivEnv
          [Inbound.msg (some "audio.input") []]).1.closed =
        some (1002, reason)) ∧
    (handle_maqsam_connection trivEnv
        [Inbound.msg (some "audio.input") []]).1.sent = [] ∧
    (handle_maqsam_connection trivEnv
        [Inbound.msg (some "audio.input") []]).2 = 1 :=
  ⟨by rfl,
    handshake_bad_first_message_closes trivEnv
      (Inbound.msg (some "audio.input") []) [] (by rfl)⟩

/-- An environment whose mu-law to WAV conversion always fails while the
voice service itself is healthy. -/
def envTranscodeFail : VoiceEnv :=
  { transcodeToWav := fun _ => none
    transcodeToUlaw := fun _ => some [1]
    voiceAvailable := true
    processVoice := fun _ => ("ok", some "reply.wav")
    fileExists := fun _ => true
    readFile := fun _ => [0] }

/-- Counterexample for claim C4: on an audio.input turn whose transcoding
fails, the handler sends no message at all to the peer, not exactly one
error message; the connection does remain open. -/
theorem transcode_failure_sends_no_error_cex :
    envTranscodeFail.transcodeToWav [7] = none ∧
    (handle_audio_input envTranscodeFail ws0 [7]).sent = [] ∧
    (handle_audio_input envTranscodeFail ws0 [7]).closed = none :=
  ⟨rfl, rfl, rfl⟩

/-- Claim C4 as amended: on every audio.input turn whose transcoding fails
(tool missing, timeout, non-zero exit, or undersized output), the turn is
abandoned with no message sent to the peer and no close, and the connection
remains open so that every subsequent frame is still processed. -/
theorem transcode_failure_amended (env : VoiceEnv) (ws : WsState)
    (audio : List Nat)
    (hfail : env.transcodeToWav audio = none ∨
      env.transcodeToWav audio = some []) :
    handle_audio_input env ws audio = ws ∧
    (∀ rest,
      process_audio_loop env ws
          (Inbound.msg (some "audio.input") audio :: rest) =
        ((process_audio_loop env ws rest).1,
          (process_audio_loop env ws rest).2 + 1)) := by
  have hsame : handle_audio_input env ws audio = ws := by
    by_cases he : audio.isEmpty
    · simp [handle_audio_input, he]
    · rcases hfail with hf | hf
      · simp [handle_audio_input, he, hf]
      · simp [handle_audio_input, he, hf]
  refine ⟨hsame, ?_⟩
  intro rest
  simp [process_audio_loop, hsame]

/-- Witness for claim C4 as amended, applied to the failing environment at a
one-byte frame. -/
theorem transcode_failure_amended_witness :
    (envTranscodeFail.transcodeToWav [7] = none ∨
      envTranscodeFail.transcodeToWav [7] = some []) ∧
    handle_audio_input envTranscodeFail ws0 [7] = ws0 :=
  ⟨Or.inl rfl,
    (transcode_failure_amended envTranscodeFail ws0 [7] (Or.inl rfl)).1⟩

/-! ## utils.py: convert_mulaw_to_pcm (lines 11-49) -/

/-- The 256-entry mu-law decoding table built inside convert_mulaw_to_pcm:
invert the bits, widen the mantissa, apply the exponent as a shift, then the
sign bit. -/
def mulaw_to_linear (b : Fin 256) : Int :=
  let val : Nat := b.val ^^^ 0xFF
  let t : Nat := ((val &&& 0x0F) <<< 3) + 8
  let t2 : Nat := t <<< ((val &&& 0x70) >>> 4)
  if val &&& 0x80 ≠ 0 then -(t2 : Int) else (t2 : Int)

/-- struct.pack with the little-endian signed 16-bit format: the two bytes
of the two's-complement representation, low byte first; none when the value
does not fit, in which case the Python call raises. -/
def pack_s16le (v : Int) : Option (List Nat) :=
  if -32768 ≤ v ∧ v ≤ 32767 then
    some [((v % 65536).toNat) % 256, ((v % 65536).toNat) / 2 ^ 8]
  else none

/-- The two bytes produced for one mu-law input byte. -/
def packedPair (b : Fin 256) : List Nat :=
  [((mulaw_to_linear b % 65536).toNat) % 256,
    ((mulaw_to_linear b % 65536).toNat) / 2 ^ 8]

/-- The loop body of convert_mulaw_to_pcm: pack every decoded sample,
propagating the first packing failure as the exception would. -/
def pack_all : List (Fin 256) → Option (List Nat)
  | [] => some []
  | b :: rest =>
    match pack_s16le (mulaw_to_linear b), pack_all rest with
    | some pair, some tail => some (pair ++ tail)
    | _, _ => none

/-- utils.py convert_mulaw_to_pcm: decode each input byte through the table
and emit 16-bit little-endian samples; if any step raised, the except branch
returns the input unchanged. -/
def convert_mulaw_to_pcm (mulaw_data : List (Fin 256)) : List Nat :=
  match pack_all mulaw_data with
  | some pcm => pcm
  | none => mulaw_data.map Fin.val

/-- Reading back sample i of a little-endian signed 16-bit byte stream. -/
def s16le_at (bytes : List Nat) (i : Nat) : Int :=
  let u := bytes.getD (2 * i) 0 + 256 * bytes.getD (2 * i + 1) 0
  if u < 32768 then (u : Int) else (u : Int) - 65536

/-- Every entry of the mu-law table is a valid signed 16-bit value. -/
theorem mulaw_to_linear_fits :
    ∀ b : Fin 256, -32768 ≤ mulaw_to_linear b ∧ mulaw_to_linear b ≤ 32767 := by
  decide

/-- Packing a table value never raises. -/
theorem pack_s16le_mulaw (b : Fin 256) :
    pack_s16le (mulaw_to_linear b) = some (packedPair b) := by
  have h := mulaw_to_linear_fits b
  simp [pack_s16le, packedPair, h.1, h.2]

/-- The packing loop succeeds on every input and produces the concatenation
of the per-byte pairs. -/
theorem pack_all_eq (data : List (Fin 256)) :
    pack_all data = some ((data.map packedPair).join) := by
  induction data with
  | nil => rfl
  | cons b rest ih => simp [pack_all, pack_s16le_mulaw, ih]

/-- The joined pair stream is exactly twice as long as the input. -/
theorem join_pairs_length (data : List (Fin 256)) :
    ((data.map packedPair).join).length = 2 * data.length := by
  induction data with
  | nil => rfl
  | cons b rest ih =>
    simp only [List.map_cons, List.join_cons, List.length_append, ih,
      List.length_cons]
    have hp : (packedPair b).length = 2 := rfl
    rw [hp]
    omega

/-- Reading sample 0 of a packed 16-bit value recovers the value. -/
theorem s16le_at_pack (v : Int) (h1 : -32768 ≤ v) (h2 : v ≤ 32767)
    (tail : List Nat) :
    s16le_at (((v % 65536).toNat % 256) :: ((v % 65536).toNat / 2 ^ 8) :: tail)
      0 = v := by
  have hz : (2 * 0 : Nat) = 0 := rfl
  have ho : (2 * 0 + 1 : Nat) = 1 := rfl
  simp only [s16le_at, hz, ho, List.getD_cons_zero, List.getD_cons_succ]
  have hpow : (2 ^ 8 : Nat) = 256 := rfl
  rw [hpow]
  split <;> omega

/-- Reading sample i+1 skips the first two bytes. -/
theorem s16le_at_cons2 (a b : Nat) (l : List Nat) (i : Nat) :
    s16le_at (a :: b :: l) (i + 1) = s16le_at l i := by
  have h1 : (a :: b :: l).getD (2 * (i + 1)) 0 = l.getD (2 * i) 0 := by
    have he : 2 * (i + 1) = 2 * i + 1 + 1 := by ring
    rw [he]
    rfl
  have h2 : (a :: b :: l).getD (2 * (i + 1) + 1) 0 = l.getD (2 * i + 1) 0 := by
    have he : 2 * (i + 1) + 1 = 2 * i + 1 + 1 + 1 := by ring
    rw [he]
    rfl
  simp only [s16le_at, h1, h2]

/-- Sample extraction from the joined pair stream. -/
theorem s16le_at_join :
    ∀ (data : List (Fin 256)) (i : Fin data.length),
      s16le_at ((data.map packedPair).join) i.val =
        mulaw_to_linear (data.get i) := by
  intro data
  induction data with
  | nil => intro i; exact absurd i.2 (by simp)
  | cons b rest ih =>
    intro i
    cases i using Fin.cases with
    | zero =>
      have h := mulaw_to_linear_fits b
      simpa [packedPair] using
        s16le_at_pack (mulaw_to_linear b) h.1 h.2 ((rest.map packedPair).join)
    | succ j =>
      have hstep := s16le_at_cons2
        ((mulaw_to_linear b % 65536).toNat % 256)
        ((mulaw_to_linear b % 65536).toNat / 2 ^ 8)
        ((rest.map packedPair).join) j.val
      simpa [packedPair, hstep] using ih j

/-- Claim C10: convert_mulaw_to_pcm is a total function of the input byte
string alone; it always takes the packing path (the exception fallback that
would return the input unchanged is unreachable, every table value being a
valid signed 16-bit integer), the output is exactly twice as long as the
input, and the i-th little-endian signed 16-bit sample of the output is the
mu-law table decoding of the i-th input byte. -/
theorem convert_mulaw_to_pcm_spec (data : List (Fin 256)) :
    convert_mulaw_to_pcm data = (data.map packedPair).join ∧
    (convert_mulaw_to_pcm data).length = 2 * data.length ∧
    (∀ i : Fin data.length,
      s16le_at (convert_mulaw_to_pcm data) i.val =
        mulaw_to_linear (data.get i)) ∧
    (∀ b : Fin 256,
      -32768 ≤ mulaw_to_linear b ∧ mulaw_to_linear b ≤ 32767) := by
  have hconv : convert_mulaw_to_pcm data = (data.map packedPair).join := by
    simp [convert_mulaw_to_pcm, pack_all_eq]
  refine ⟨hconv, ?_, ?_, mulaw_to_linear_fits⟩
  · rw [hconv]
    exact join_pairs_length data
  · intro i
    rw [hconv]
    exact s16le_at_join data i

/-! ## main.py: check_rate_limit (lines 442-463) -/

/-- The session_rate_limits dictionary: client key to the retained request
timestamps, an absent key standing for the empty list (the code inserts an
empty list before reading). -/
abbrev RLState : Type := String → List ℚ

/-- The dictionary at process start. -/
def rlInit : RLState := fun _ => []

/-- Python dictionary assignment session_rate_limits[client_ip] = v. -/
def updState (st : RLState) (client_ip : String) (v : List ℚ) : RLState :=
  fun k => if k = client_ip then v else st k

/-- main.py check_rate_limit: prune the timestamps of the client older than
60 seconds, refuse when at least RATE_LIMIT_PER_MINUTE remain, otherwise
append the current time and admit.  Returns the decision and the updated
dictionary. -/
def check_rate_limit (rate_limit_per_minute : Nat) (current_time : ℚ)
    (client_ip : String) (st : RLState) : Bool × RLState :=
  let pruned := (st client_ip).filter (fun x => current_time - x < 60)
  if pruned.length ≥ rate_limit_per_minute then
    (false, updState st client_ip pruned)
  else
    (true, updState st client_ip (pruned ++ [current_time]))

/-- Run a sequence of (client, time) checks and keep the admitted ones. -/
def admittedRL (rate_limit_per_minute : Nat) :
    RLState → List (String × ℚ) → List (String × ℚ)
  | _, [] => []
  | st, c :: rest =>
    let r := check_rate_limit rate_limit_per_minute c.2 c.1 st
    (if r.1 then [c] else []) ++ admittedRL rate_limit_per_minute r.2 rest

/-- The timestamps belonging to one client among a list of request events. -/
def histTimes (l : List (String × ℚ)) (client_ip : String) : List ℚ :=
  (l.filter (fun e => e.1 = client_ip)).map Prod.snd

/-- How many events of the list belong to the client and fall inside the
trailing 60-second window ending at w. -/
def countWindow (l : List (String × ℚ)) (client_ip : String) (w : ℚ) : Nat :=
  ((histTimes l client_ip).filter (fun a => w - 60 < a ∧ a ≤ w)).length

/-- The invariant tying the dictionary to the history of admitted events:
every admitted timestamp of a client still within 60 seconds of the time
T last reached is retained (with multiplicity) in that client's bucket. -/
def RLInv (st : RLState) (hist : List (String × ℚ)) (T : ℚ) : Prop :=
  ∀ client_ip,
    (↑((histTimes hist client_ip).filter (fun a => T - a < 60)) : Multiset ℚ) ≤
      ↑(st client_ip)

theorem histTimes_append (l₁ l₂ : List (String × ℚ)) (ip : String) :
    histTimes (l₁ ++ l₂) ip = histTimes l₁ ip ++ histTimes l₂ ip := by
  simp [histTimes, List.filter_append]

theorem countWindow_append (l₁ l₂ : List (String × ℚ)) (ip : String) (w : ℚ) :
    countWindow (l₁ ++ l₂) ip w = countWindow l₁ ip w + countWindow l₂ ip w := by
  simp [countWindow, histTimes_append, List.filter_append]

theorem countWindow_nil (ip : String) (w : ℚ) : countWindow [] ip w = 0 := rfl

/-- The invariant is antitone in the reference time: moving T forward only
shrinks the set of timestamps it retains. -/
theorem RLInv_lift (st : RLState) (hist : List (String × ℚ)) (T t : ℚ)
    (hT : T ≤ t) (h : RLInv st hist T) : RLInv st hist t := by
  intro ip
  refine le_trans ?_ (h ip)
  rw [Multiset.coe_le]
  refine List.Sublist.subperm ?_
  refine List.monotone_filter_right _ ?_
  intro a ha
  simp only [decide_eq_true_eq] at ha ⊢
  linarith

theorem check_rate_limit_fst (N : Nat) (now : ℚ) (k : String) (st : RLState) :
    (check_rate_limit N now k st).1 =
      decide (((st k).filter (fun x => now - x < 60)).length < N) := by
  by_cases h : ((st k).filter (fun x => now - x < 60)).length ≥ N
  · simp only [check_rate_limit, if_pos h]
    have : ¬ ((st k).filter (fun x => now - x < 60)).length < N := by omega
    simp [this]
  · simp only [check_rate_limit, if_neg h]
    have : ((st k).filter (fun x => now - x < 60)).length < N := by omega
    simp [this]

theorem check_rate_limit_snd_same (N : Nat) (now : ℚ) (k : String)
    (st : RLState) :
    (check_rate_limit N now k st).2 k =
      (st k).filter (fun x => now - x < 60) ++
        (if ((st k).filter (fun x => now - x < 60)).length < N
          then [now] else []) := by
  by_cases h : ((st k).filter (fun x => now - x < 60)).length ≥ N
  · have hn : ¬ ((st k).filter (fun x => now - x < 60)).length < N := by omega
    simp [check_rate_limit, if_pos h, updState, hn]
  · have hy : ((st k).filter (fun x => now - x < 60)).length < N := by omega
    simp [check_rate_limit, if_neg h, updState, hy]

theorem check_rate_limit_snd_other (N : Nat) (now : ℚ) (k : String)
    (st : RLState) (k' : String) (h : ¬ (k' = k)) :
    (check_rate_limit N now k st).2 k' = st k' := by
  by_cases hc : ((st k).filter (fun x => now - x < 60)).length ≥ N
  · simp [check_rate_limit, if_pos hc, updState, h]
  · simp [check_rate_limit, if_neg hc, updState, h]

theorem countWindow_single (k : String) (t : ℚ) (ip : String) (w : ℚ) :
    countWindow [(k, t)] ip w =
      if k = ip ∧ (w - 60 < t ∧ t ≤ w) then 1 else 0 := by
  by_cases hk : k = ip
  · by_cases hw : w - 60 < t ∧ t ≤ w
    · simp [countWindow, histTimes, hk, hw]
    · simp [countWindow, histTimes, hk, hw]
  · simp [countWindow, histTimes, hk]

/-- The retained window of the admitted history survives the pruning done by
the current check: every admitted timestamp of client k still within 60
seconds of the check time t remains, with multiplicity, among the pruned
bucket entries. -/
theorem window_le_pruned (st : RLState) (hist : List (String × ℚ)) (t : ℚ)
    (k : String) (hinv : RLInv st hist t) :
    List.Subperm ((histTimes hist k).filter (fun a => t - a < 60))
      ((st k).filter (fun x => t - x < 60)) := by
  have h1 : List.Subperm ((histTimes hist k).filter (fun a => t - a < 60))
      (st k) := Multiset.coe_le.mp (hinv k)
  have h2 := List.Subperm.filter (fun x => decide (t - x < 60)) h1
  have hidem : ((histTimes hist k).filter (fun a => t - a < 60)).filter
      (fun x => decide (t - x < 60)) =
      (histTimes hist k).filter (fun a => t - a < 60) :=
    List.filter_eq_self.mpr (fun a ha => (List.mem_filter.mp ha).2)
  rwa [hidem] at h2

/-- Timestamps inside the window ending at w also survive pruning at any
check time not after w. -/
theorem windowList_subperm_pruned (st : RLState) (hist : List (String × ℚ))
    (t w : ℚ) (k : String) (ht : t ≤ w) (hinv : RLInv st hist t) :
    List.Subperm ((histTimes hist k).filter (fun a => w - 60 < a ∧ a ≤ w))
      ((st k).filter (fun x => t - x < 60)) := by
  have hsub : List.Sublist
      ((histTimes hist k).filter (fun a => w - 60 < a ∧ a ≤ w))
      ((histTimes hist k).filter (fun a => t - a < 60)) := by
    refine List.monotone_filter_right _ ?_
    intro a ha
    simp only [decide_eq_true_eq] at ha ⊢
    linarith [ha.1, ha.2]
  exact hsub.subperm.trans (window_le_pruned st hist t k hinv)

/-- Processing one check preserves the invariant, the history being extended
by the event exactly when it is admitted. -/
theorem RLInv_step (N : Nat) (st : RLState) (hist : List (String × ℚ))
    (k : String) (t : ℚ) (hinv : RLInv st hist t) :
    RLInv (check_rate_limit N t k st).2
      (hist ++ (if (check_rate_limit N t k st).1 = true then [(k, t)] else []))
      t := by
  intro ip
  by_cases hip : ip = k
  · subst hip
    rw [check_rate_limit_snd_same, check_rate_limit_fst]
    have hT : histTimes
        (hist ++ (if (decide (((st ip).filter (fun x => t - x < 60)).length < N))
            = true then [(ip, t)] else [])) ip =
        histTimes hist ip ++
          (if ((st ip).filter (fun x => t - x < 60)).length < N
            then [t] else []) := by
      by_cases hlen : ((st ip).filter (fun x => t - x < 60)).length < N
      · simp [histTimes_append, histTimes, hlen]
      · simp [histTimes_append, hlen]
    rw [hT, List.filter_append]
    have hfil : ((if ((st ip).filter (fun x => t - x < 60)).length < N
          then [t] else []) : List ℚ).filter (fun a => t - a < 60) =
        (if ((st ip).filter (fun x => t - x < 60)).length < N
          then [t] else []) := by
      by_cases hlen : ((st ip).filter (fun x => t - x < 60)).length < N
      · simp only [if_pos hlen]
        have h60 : t - t < 60 := by norm_num
        simp [h60]
      · simp [if_neg hlen]
    rw [hfil]
    rw [← Multiset.coe_add, ← Multiset.coe_add]
    exact add_le_add_right
      (Multiset.coe_le.mpr (window_le_pruned st hist t ip hinv)) _
  · rw [check_rate_limit_snd_other N t k st ip hip]
    have hk2 : ¬ (k = ip) := fun h => hip h.symm
    have hT : histTimes
        (hist ++ (if (check_rate_limit N t k st).1 = true then [(k, t)]
          else [])) ip = histTimes hist ip := by
      by_cases hb : (check_rate_limit N t k st).1 = true
      · simp [hb, histTimes_append, histTimes, hk2]
      · simp [hb, histTimes_append, histTimes]
    rw [hT]
    exact hinv ip

/-- Any run whose starting state and admitted history are tied by the
invariant, with the trace times nondecreasing and not before the reference
time, keeps the number of admitted events of each client in each window,
counted together with the history, at or below the limit. -/
theorem rl_window_aux (N : Nat) (ip : String) (w : ℚ) :
    ∀ (trace : List (String × ℚ)) (st : RLState)
      (hist : List (String × ℚ)) (T : ℚ),
      (trace.map Prod.snd).Pairwise (· ≤ ·) →
      (∀ e ∈ trace, T ≤ e.2) →
      RLInv st hist T →
      countWindow hist ip w ≤ N →
      countWindow hist ip w + countWindow (admittedRL N st trace) ip w ≤ N := by
  intro trace
  induction trace with
  | nil =>
    intro st hist T hpw hT hinv hcount
    simpa [admittedRL, countWindow_nil] using hcount
  | cons c rest ih =>
    obtain ⟨k, t⟩ := c
    intro st hist T hpw hT hinv hcount
    have hTt : T ≤ t := hT (k, t) (List.mem_cons_self _ _)
    have hinv_t : RLInv st hist t := RLInv_lift st hist T t hTt hinv
    have hpw2 : List.Pairwise (· ≤ ·) (t :: rest.map Prod.snd) := by
      simpa using hpw
    have hpw' := List.pairwise_cons.mp hpw2
    have hle_rest : ∀ e ∈ rest, t ≤ e.2 := fun e he =>
      hpw'.1 e.2 (List.mem_map_of_mem Prod.snd he)
    have hinv' : RLInv (check_rate_limit N t k st).2
        (hist ++ (if (check_rate_limit N t k st).1 = true then [(k, t)]
          else [])) t :=
      RLInv_step N st hist k t hinv_t
    have hcw_new : countWindow
        (hist ++ (if (check_rate_limit N t k st).1 = true then [(k, t)]
          else [])) ip w =
        countWindow hist ip w +
          countWindow (if (check_rate_limit N t k st).1 = true then [(k, t)]
            else []) ip w :=
      countWindow_append _ _ _ _
    have hhead_le : countWindow hist ip w +
        countWindow (if (check_rate_limit N t k st).1 = true then [(k, t)]
          else []) ip w ≤ N := by
      by_cases hbt : (check_rate_limit N t k st).1 = true
      · have hlen : ((st k).filter (fun x => t - x < 60)).length < N := by
          have hf := check_rate_limit_fst N t k st
          rw [hbt] at hf
          exact of_decide_eq_true hf.symm
        by_cases hkip : k = ip ∧ (w - 60 < t ∧ t ≤ w)
        · have hwlt : countWindow hist ip w < N := by
            have hsp := windowList_subperm_pruned st hist t w ip
              hkip.2.2 hinv_t
            have hlip : ((st ip).filter (fun x => t - x < 60)).length < N := by
              rw [← hkip.1]
              exact hlen
            calc countWindow hist ip w
                ≤ ((st ip).filter (fun x => t - x < 60)).length :=
                  hsp.length_le
              _ < N := hlip
          have hone : countWindow (if (check_rate_limit N t k st).1 = true
              then [(k, t)] else []) ip w = 1 := by
            rw [if_pos hbt, countWindow_single, if_pos hkip]
          rw [hone]
          omega
        · have hzero : countWindow (if (check_rate_limit N t k st).1 = true
              then [(k, t)] else []) ip w = 0 := by
            rw [if_pos hbt, countWindow_single, if_neg hkip]
          rw [hzero]
          omega
      · have hnil : (if (check_rate_limit N t k st).1 = true
            then [(k, t)] else []) = ([] : List (String × ℚ)) := by
          simp [hbt]
        rw [hnil, countWindow_nil]
        omega
    have hmain := ih (check_rate_limit N t k st).2
      (hist ++ (if (check_rate_limit N t k st).1 = true then [(k, t)]
        else [])) t hpw'.2 hle_rest hinv' (by rw [hcw_new]; exact hhead_le)
    have hunfold : admittedRL N st ((k, t) :: rest) =
        (if (check_rate_limit N t k st).1 = true then [(k, t)] else []) ++
          admittedRL N (check_rate_limit N t k st).2 rest := by
      simp [admittedRL]
    rw [hunfold, countWindow_append]
    rw [hcw_new] at hmain
    omega

/-- Claim C2: for every client key and every trailing 60-second window, a
run of the rate limiter from its initial state over time-ordered requests
admits at most N requests of that client inside that window; moreover each
check first prunes the client's timestamps older than 60 seconds, admits
exactly when fewer than N remain, appends the current timestamp exactly
when it admits, and leaves every other client's bucket unchanged. -/
theorem rate_limiter_window_bound (N : Nat) (trace : List (String × ℚ))
    (ip : String) (w : ℚ)
    (hmono : (trace.map Prod.snd).Chain' (· ≤ ·)) :
    countWindow (admittedRL N rlInit trace) ip w ≤ N ∧
    (∀ (st : RLState) (now : ℚ) (k : String),
      ((check_rate_limit N now k st).1 = true ↔
        ((st k).filter (fun x => now - x < 60)).length < N)) ∧
    (∀ (st : RLState) (now : ℚ) (k : String),
      (check_rate_limit N now k st).2 k =
        (st k).filter (fun x => now - x < 60) ++
          (if ((st k).filter (fun x => now - x < 60)).length < N
            then [now] else [])) ∧
    (∀ (st : RLState) (now : ℚ) (k k' : String), ¬ (k' = k) →
      (check_rate_limit N now k st).2 k' = st k') := by
  refine ⟨?_, ?_, ?_, ?_⟩
  · have hpw : (trace.map Prod.snd).Pairwise (· ≤ ·) :=
      List.chain'_iff_pairwise.mp hmono
    cases trace with
    | nil =>
      simp [admittedRL, countWindow_nil]
    | cons c rest =>
      have hpw2 : List.Pairwise (· ≤ ·) (c.2 :: rest.map Prod.snd) := by
        simpa using hpw
      have hpw3 := List.pairwise_cons.mp hpw2
      have hle : ∀ e ∈ c :: rest, c.2 ≤ e.2 := by
        intro e he
        rcases List.mem_cons.mp he with h | h
        · rw [h]
        · exact hpw3.1 e.2 (List.mem_map_of_mem Prod.snd h)
      have hinv0 : RLInv rlInit [] c.2 := by
        intro q
        simp [histTimes, rlInit]
      have := rl_window_aux N ip w (c :: rest) rlInit [] c.2 hpw hle hinv0
        (by rw [countWindow_nil]; exact Nat.zero_le N)
      simpa [countWindow_nil] using this
  · intro st now k
    rw [check_rate_limit_fst]
    exact decide_eq_true_iff
  · intro st now k
    exact check_rate_limit_snd_same N now k st
  · intro st now k k' h
    exact check_rate_limit_snd_other N now k st k' h

/-- Witness for claim C2, applied to a limit of 1 and two same-instant
requests of the same client: at most one is admitted in the window ending
at that instant. -/
theorem rate_limiter_window_bound_witness :
    (([(("a" : String), (0 : ℚ)), ("a", 0)].map Prod.snd).Chain' (· ≤ ·)) ∧
    countWindow (admittedRL 1 rlInit [("a", 0), ("a", 0)]) "a" 0 ≤ 1 :=
  ⟨by simp [List.chain'_cons],
    (rate_limiter_window_bound 1 [("a", 0), ("a", 0)] "a" 0
      (by simp [List.chain'_cons])).1⟩
